import Mathlib

/-!
Shallow embedding of the ironvein-client core (src/src/lib.rs).

The client is a wasm module; DOM handles (canvas, 2d context, chat-panel
elements) and the browser WebSocket object are environment resources.  They
are modelled as follows:

* The players table (a hash map from username to Player) and the pending-chat
  table (a hash map from normalized text to a placeholder DOM element) are
  modelled as association lists with insert-replaces-value semantics;
  placeholder DOM elements are opaque and modelled by Nat handles.
* A browser WebSocket is reduced to its ready_state field; creating a socket
  and writing a frame are environment actions whose outcome is passed in as a
  parameter.
* DOM side effects (chat lines appended, the position display, the
  player-list panel) are returned as explicit effect data.
-/

/-- Keys of an association list. -/
def assocKeys {α : Type} (m : List (String × α)) : List String :=
  m.map Prod.fst

/-- Hash-map insert: replaces the stored value when the key is present. -/
def insertAssoc {α : Type} (k : String) (v : α) : List (String × α) → List (String × α)
  | [] => [(k, v)]
  | (k1, v1) :: rest => if k1 = k then (k, v) :: rest else (k1, v1) :: insertAssoc k v rest

/-- Hash-map lookup. -/
def lookupAssoc {α : Type} (k : String) : List (String × α) → Option α
  | [] => none
  | (k1, v1) :: rest => if k1 = k then some v1 else lookupAssoc k rest

/-- The removal part of hash-map remove. -/
def eraseAssoc {α : Type} (k : String) : List (String × α) → List (String × α)
  | [] => []
  | (k1, v1) :: rest => if k1 = k then rest else (k1, v1) :: eraseAssoc k rest

/-- The map holds at most one entry per key. -/
def keysNodup {α : Type} (m : List (String × α)) : Prop :=
  (assocKeys m).Nodup

instance {α : Type} (m : List (String × α)) : Decidable (keysNodup m) :=
  inferInstanceAs (Decidable ((assocKeys m).Nodup))

/-- Player (src/src/lib.rs lines 28-36); the u32 fields are modelled as Nat
(no arithmetic is ever performed on them by the modelled operations). -/
structure Player where
  username : String
  x : Nat
  y : Nat
  room : String
  health : Nat
  resources : Nat
deriving DecidableEq

/-- ChatMessage (lines 62-69); the serde_json id and timestamp values are
opaque to every modelled code path and are kept as plain strings. -/
structure ChatMessage where
  id : String
  username : String
  message : String
  timestamp : String
  room : String
deriving DecidableEq

/-- WebSocketMessage (lines 39-60). -/
inductive WebSocketMessage where
  | Join (username room : String)
  | Message (username message room : String)
  | ChatMsg (cm : ChatMessage)
  | PlayerJoined (username : String) (x y : Nat)
  | PlayerLeft (username : String)
  | ErrorMsg (message : String)
  | Move (username : String) (x y : Nat) (room : String)
  | PlayerUpdate (username : String) (x y health resources : Nat)
  | GameState (players : List Player)
deriving DecidableEq

/-- A browser WebSocket, reduced to the one field the client reads. -/
structure WebSocket where
  ready_state : Nat
deriving DecidableEq

/-- The numeric value of the OPEN ready state of a browser WebSocket. -/
def wsOPEN : Nat := 1

/-- IronVeinClient (lines 71-82).  canvas, context and game_loop_id are
render-environment handles that no modelled operation reads or writes and are
omitted; the pending placeholder elements are opaque Nat handles. -/
structure IronVeinClient where
  username : String
  room : String
  websocket : Option WebSocket
  players : List (String × Player)
  my_player : Option Player
  pending_messages : List (String × Nat)
deriving DecidableEq

/-- is_websocket_connected (lines 848-854). -/
def is_websocket_connected (c : IronVeinClient) : Bool :=
  match c.websocket with
  | some ws => ws.ready_state == wsOPEN
  | none => false

/-- get_server_url (lines 658-676): every branch returns the production URL. -/
def get_server_url : String :=
  "wss://ironvein-server-production.up.railway.app"

/-- What connect leaves behind on success. -/
structure ConnectResult where
  client : IronVeinClient
  url : String
deriving DecidableEq

/-- connect (lines 134-153): builds the room URL, asks the environment for a
fresh WebSocket (socket construction may fail; its outcome is the
socketResult parameter), stores the socket and installs the handlers.  No
prior connection state is inspected anywhere in the function. -/
def connect (c : IronVeinClient) (socketResult : Except String WebSocket) :
    Except String ConnectResult :=
  match socketResult with
  | Except.error e => Except.error e
  | Except.ok ws =>
      Except.ok { client := { c with websocket := some ws },
                  url := get_server_url ++ "/ws/" ++ c.room }

/-- update_player (lines 627-640): builds the record with room forced to the
client's own room, mirrors it into my_player when the username equals the
local one, and inserts it into the table at the username key. -/
def update_player (c : IronVeinClient) (username : String) (x y health resources : Nat) :
    IronVeinClient :=
  let player : Player :=
    { username := username, x := x, y := y, health := health,
      resources := resources, room := c.room }
  let c1 := if username = c.username then { c with my_player := some player } else c
  { c1 with players := insertAssoc username player c1.players }

/-- The insertion loop of update_all_players (lines 647-652): for each
snapshot player in order, mirror my_player on a username match, then insert
the player (as parsed, its own room included) at its username key. -/
def insert_players (c : IronVeinClient) : List Player → IronVeinClient
  | [] => c
  | p :: ps =>
      let c1 := if p.username = c.username then { c with my_player := some p } else c
      insert_players { c1 with players := insertAssoc p.username p c1.players } ps

/-- update_all_players after a successful parse (lines 644-653): clears the
table, then runs the insertion loop over the snapshot. -/
def update_all_players_core (c : IronVeinClient) (ps : List Player) : IronVeinClient :=
  insert_players { c with players := [] } ps

/-- update_all_players (lines 642-655): a JSON parse failure leaves the
client unchanged; parsing belongs to the environment, so the parse result is
passed in already decoded. -/
def update_all_players (c : IronVeinClient) (parsed : Option (List Player)) : IronVeinClient :=
  match parsed with
  | some ps => update_all_players_core c ps
  | none => c

/-- Dropping whitespace from both ends of a character list (the semantics of
trim on strings). -/
def trimChars (cs : List Char) : List Char :=
  ((cs.dropWhile Char.isWhitespace).reverse.dropWhile Char.isWhitespace).reverse

/-- The key normalization used on both sides of the pending-chat table
(lines 766 and 798): lowercase every character, then trim surrounding
whitespace. -/
def normalizeKey (s : String) : String :=
  String.mk (trimChars (s.data.map Char.toLower))

/-- The pending-table effect of add_pending_message (lines 777-801): when the
chat container element exists, a placeholder element (an opaque handle here)
is stored under the normalized key; without the container nothing happens. -/
def add_pending_message (message : String) (handle : Nat) (chatBoxPresent : Bool)
    (pending : List (String × Nat)) : List (String × Nat) :=
  if chatBoxPresent then insertAssoc (normalizeKey message) handle pending else pending

/-- The pending-table effect of handle_chat_message (lines 761-772):
hash-map remove at the normalized key, returning the removed placeholder. -/
def pending_retire (text : String) (pending : List (String × Nat)) :
    Option Nat × List (String × Nat) :=
  match lookupAssoc (normalizeKey text) pending with
  | some h => (some h, eraseAssoc (normalizeKey text) pending)
  | none => (none, pending)

/-- Where the dispatcher sends one inbound chat_message. -/
inductive ChatRoute where
  | ping
  | chat
deriving DecidableEq

/-- The inbound ChatMessage branch of both onmessage handlers (lines 307-314
and 370-377): raw equality of the message body with the two sentinel strings
plus a username match routes to handle_ping_response; everything else goes to
handle_chat_message (chat display). -/
def route_chat_message (selfUsername : String) (cm : ChatMessage) : ChatRoute :=
  if (cm.message = "__ping__" ∨ cm.message = "p") ∧ cm.username = selfUsername then
    ChatRoute.ping
  else ChatRoute.chat

/-- Observable outcome of send_move_command. -/
structure MoveResult where
  sent : List WebSocketMessage
  posDisplay : List (String × Nat × Nat)
  client : IronVeinClient
deriving DecidableEq

/-- send_move_command (lines 455-484), a method on an immutable receiver: it
can hand a Move frame to the channel write and, when the write succeeds
(sendOk), refresh the DOM position display; the client state itself is
returned unchanged, which mirrors the receiver being read-only. -/
def send_move_command (c : IronVeinClient) (x y : Nat) (sendOk : Bool) : MoveResult :=
  if is_websocket_connected c = false then
    { sent := [], posDisplay := [], client := c }
  else
    match c.websocket with
    | some _ =>
        if sendOk then
          { sent := [WebSocketMessage.Move c.username x y c.room],
            posDisplay := [(c.username, x, y)], client := c }
        else
          { sent := [WebSocketMessage.Move c.username x y c.room],
            posDisplay := [], client := c }
    | none => { sent := [], posDisplay := [], client := c }

/-- Observable outcome of send_message: frames handed to the channel write,
chat lines appended to the panel, and the pending table afterwards. -/
structure SendOutcome where
  sent : List WebSocketMessage
  chatLines : List String
  pending : List (String × Nat)
deriving DecidableEq

/-- send_message (lines 486-528).  sendOk is the environment outcome of the
channel write; newHandle is the placeholder element a successful
non-sentinel send creates; chatBoxPresent is whether the chat container
exists.  Serialization of the Message frame never fails for these shapes. -/
def send_message (c : IronVeinClient) (message : String) (sendOk chatBoxPresent : Bool)
    (newHandle : Nat) : SendOutcome :=
  if is_websocket_connected c = false then
    { sent := [],
      chatLines :=
        if message = "__ping__" ∨ message = "p" then []
        else ["❌ Not connected to server"],
      pending := c.pending_messages }
  else
    match c.websocket with
    | some _ =>
        if sendOk then
          if message = "__ping__" ∨ message = "p" then
            { sent := [WebSocketMessage.Message c.username message c.room],
              chatLines := [], pending := c.pending_messages }
          else
            { sent := [WebSocketMessage.Message c.username message c.room],
              chatLines := [],
              pending := add_pending_message message newHandle chatBoxPresent
                c.pending_messages }
        else
          { sent := [WebSocketMessage.Message c.username message c.room],
            chatLines :=
              if message = "__ping__" ∨ message = "p" then []
              else ["❌ Failed to send message - connection lost"],
            pending := c.pending_messages }
    | none => { sent := [], chatLines := [], pending := c.pending_messages }

/-- The effect of one inbound frame on the client state, as dispatched by the
onmessage handler (lines 278-327): player_joined and player_update reach
update_player (joined with health 100, resources 0), game_state reaches
update_all_players, a chat_message either resolves a ping (state untouched)
or retires its pending entry, and player_left reaches only the DOM player
list, never the client table. -/
def apply_game_message (c : IronVeinClient) : WebSocketMessage → IronVeinClient
  | WebSocketMessage.PlayerJoined u x y => update_player c u x y 100 0
  | WebSocketMessage.PlayerUpdate u x y health resources =>
      update_player c u x y health resources
  | WebSocketMessage.GameState ps => update_all_players_core c ps
  | WebSocketMessage.ChatMsg cm =>
      if (cm.message = "__ping__" ∨ cm.message = "p") ∧ cm.username = c.username then c
      else { c with pending_messages := (pending_retire cm.message c.pending_messages).2 }
  | _ => c

/-- A whole inbound sequence, dispatched in arrival order. -/
def apply_game_messages (c : IronVeinClient) (ms : List WebSocketMessage) : IronVeinClient :=
  ms.foldl apply_game_message c

/-- The wasm-exported methods of IronVeinClient, in source order (impl block,
lines 84-855). -/
def ironVeinClientExportedMethods : List String :=
  ["new", "set_user_info", "setup_game_canvas", "connect", "connect_to_server",
   "join_battle", "send_ping", "setup_click_handler", "send_move_command",
   "send_message", "start_game_loop", "render_game", "update_player",
   "update_all_players"]

/-- The distinguished self reference agrees with the table entry stored under
the local username. -/
def selfConsistent (c : IronVeinClient) : Prop :=
  c.my_player = lookupAssoc c.username c.players

instance (c : IronVeinClient) : Decidable (selfConsistent c) :=
  inferInstanceAs (Decidable (c.my_player = lookupAssoc c.username c.players))

/-- The last snapshot entry carrying a given username. -/
def snapshotLookup (u : String) : List Player → Option Player
  | [] => none
  | p :: ps =>
      match snapshotLookup u ps with
      | some q => some q
      | none => if p.username = u then some p else none

/-- Folding the snapshot inserts over a table. -/
def insertList : List Player → List (String × Player) → List (String × Player)
  | [], m => m
  | p :: ps, m => insertList ps (insertAssoc p.username p m)

/-- Concrete fixture: the local player at the origin. -/
def pAlice0 : Player :=
  { username := "alice", x := 0, y := 0, room := "r1", health := 100, resources := 0 }

/-- Concrete fixture: a remote player. -/
def pBob : Player :=
  { username := "bob", x := 3, y := 4, room := "r1", health := 90, resources := 5 }

/-- Concrete fixture: a client that has not connected yet. -/
def cFresh : IronVeinClient :=
  { username := "alice", room := "r1", websocket := none, players := [],
    my_player := none, pending_messages := [] }

/-- Concrete fixture: a connected client with the local player in the table. -/
def cOpen : IronVeinClient :=
  { username := "alice", room := "r1", websocket := some { ready_state := wsOPEN },
    players := [("alice", pAlice0)], my_player := some pAlice0,
    pending_messages := [] }

/-- Concrete fixture: a self echo whose normalized body is the probe sentinel
but whose raw body is not. -/
def cmSpacedProbe : ChatMessage :=
  { id := "1", username := "alice", message := " p ", timestamp := "t", room := "r1" }

/-! ### Association-map lemmas -/

theorem lookupAssoc_insertAssoc_self {α : Type} (k : String) (v : α)
    (m : List (String × α)) : lookupAssoc k (insertAssoc k v m) = some v := by
  induction m with
  | nil => simp [insertAssoc, lookupAssoc]
  | cons kv rest ih =>
      obtain ⟨k1, v1⟩ := kv
      by_cases h : k1 = k
      · simp [insertAssoc, lookupAssoc, h]
      · simp [insertAssoc, lookupAssoc, h, ih]

theorem lookupAssoc_insertAssoc_ne {α : Type} (k k2 : String) (v : α)
    (m : List (String × α)) (hne : k2 ≠ k) :
    lookupAssoc k2 (insertAssoc k v m) = lookupAssoc k2 m := by
  induction m with
  | nil => simp [insertAssoc, lookupAssoc, Ne.symm hne]
  | cons kv rest ih =>
      obtain ⟨k1, v1⟩ := kv
      by_cases h : k1 = k
      · subst h
        simp [insertAssoc, lookupAssoc, Ne.symm hne]
      · by_cases h2 : k1 = k2
        · subst h2
          simp [insertAssoc, lookupAssoc, h]
        · simp [insertAssoc, lookupAssoc, h, h2, ih]

theorem eraseAssoc_insertAssoc {α : Type} (k : String) (v : α)
    (m : List (String × α)) : eraseAssoc k (insertAssoc k v m) = eraseAssoc k m := by
  induction m with
  | nil => simp [insertAssoc, eraseAssoc]
  | cons kv rest ih =>
      obtain ⟨k1, v1⟩ := kv
      by_cases h : k1 = k
      · simp [insertAssoc, eraseAssoc, h]
      · simp [insertAssoc, eraseAssoc, h, ih]

theorem assocKeys_insertAssoc_mem {α : Type} (k : String) (v : α)
    (m : List (String × α)) (h : k ∈ assocKeys m) :
    assocKeys (insertAssoc k v m) = assocKeys m := by
  induction m with
  | nil => simp [assocKeys] at h
  | cons kv rest ih =>
      obtain ⟨k1, v1⟩ := kv
      by_cases hk : k1 = k
      · subst hk
        simp [insertAssoc, assocKeys]
      · have hcons : k ∈ k1 :: assocKeys rest := h
        have h2 : k ∈ assocKeys rest := by
          rcases List.mem_cons.mp hcons with h3 | h3
          · exact absurd h3.symm hk
          · exact h3
        simp only [insertAssoc, if_neg hk]
        show k1 :: assocKeys (insertAssoc k v rest) = k1 :: assocKeys rest
        rw [ih h2]

theorem assocKeys_insertAssoc_notMem {α : Type} (k : String) (v : α)
    (m : List (String × α)) (h : k ∉ assocKeys m) :
    assocKeys (insertAssoc k v m) = assocKeys m ++ [k] := by
  induction m with
  | nil => simp [insertAssoc, assocKeys]
  | cons kv rest ih =>
      obtain ⟨k1, v1⟩ := kv
      have hne : ¬k1 = k := by
        intro h1
        exact h (show k ∈ k1 :: assocKeys rest from List.mem_cons.mpr (Or.inl h1.symm))
      have h2 : k ∉ assocKeys rest := by
        intro h3
        exact h (show k ∈ k1 :: assocKeys rest from List.mem_cons.mpr (Or.inr h3))
      simp only [insertAssoc, if_neg hne]
      show k1 :: assocKeys (insertAssoc k v rest) = (k1 :: assocKeys rest) ++ [k]
      rw [ih h2]
      rfl

theorem keysNodup_insertAssoc {α : Type} (k : String) (v : α)
    (m : List (String × α)) (h : keysNodup m) : keysNodup (insertAssoc k v m) := by
  unfold keysNodup at h ⊢
  by_cases h2 : k ∈ assocKeys m
  · rw [assocKeys_insertAssoc_mem k v m h2]
    exact h
  · rw [assocKeys_insertAssoc_notMem k v m h2]
    refine List.Nodup.append h (List.nodup_singleton k) ?_
    intro a ha hb
    simp at hb
    subst hb
    exact h2 ha

theorem keysNodup_insertList (ps : List Player) (m : List (String × Player))
    (h : keysNodup m) : keysNodup (insertList ps m) := by
  induction ps generalizing m with
  | nil => exact h
  | cons p ps ih => exact ih _ (keysNodup_insertAssoc _ _ _ h)

/-! ### Client-operation lemmas -/

theorem clientEq (c1 c2 : IronVeinClient)
    (h1 : c1.username = c2.username) (h2 : c1.room = c2.room)
    (h3 : c1.websocket = c2.websocket) (h4 : c1.players = c2.players)
    (h5 : c1.my_player = c2.my_player)
    (h6 : c1.pending_messages = c2.pending_messages) : c1 = c2 := by
  cases c1
  cases c2
  simp_all

theorem update_player_players (c : IronVeinClient) (u : String) (x y hp rs : Nat) :
    (update_player c u x y hp rs).players =
      insertAssoc u
        { username := u, x := x, y := y, room := c.room, health := hp, resources := rs }
        c.players := by
  unfold update_player
  by_cases h : u = c.username <;> simp [h]

theorem update_player_username (c : IronVeinClient) (u : String) (x y hp rs : Nat) :
    (update_player c u x y hp rs).username = c.username := by
  unfold update_player
  by_cases h : u = c.username <;> simp [h]

theorem update_player_my_player (c : IronVeinClient) (u : String) (x y hp rs : Nat) :
    (update_player c u x y hp rs).my_player =
      if u = c.username then
        some { username := u, x := x, y := y, room := c.room, health := hp, resources := rs }
      else c.my_player := by
  unfold update_player
  by_cases h : u = c.username <;> simp [h]

theorem insert_players_username (c : IronVeinClient) (ps : List Player) :
    (insert_players c ps).username = c.username := by
  induction ps generalizing c with
  | nil => rfl
  | cons p ps ih =>
      by_cases h : p.username = c.username <;> simp [insert_players, h, ih]

theorem insert_players_room (c : IronVeinClient) (ps : List Player) :
    (insert_players c ps).room = c.room := by
  induction ps generalizing c with
  | nil => rfl
  | cons p ps ih =>
      by_cases h : p.username = c.username <;> simp [insert_players, h, ih]

theorem insert_players_websocket (c : IronVeinClient) (ps : List Player) :
    (insert_players c ps).websocket = c.websocket := by
  induction ps generalizing c with
  | nil => rfl
  | cons p ps ih =>
      by_cases h : p.username = c.username <;> simp [insert_players, h, ih]

theorem insert_players_pending (c : IronVeinClient) (ps : List Player) :
    (insert_players c ps).pending_messages = c.pending_messages := by
  induction ps generalizing c with
  | nil => rfl
  | cons p ps ih =>
      by_cases h : p.username = c.username <;> simp [insert_players, h, ih]

theorem insert_players_players (c : IronVeinClient) (ps : List Player) :
    (insert_players c ps).players = insertList ps c.players := by
  induction ps generalizing c with
  | nil => rfl
  | cons p ps ih =>
      by_cases h : p.username = c.username <;> simp [insert_players, insertList, h, ih]

theorem insert_players_my_player (c : IronVeinClient) (ps : List Player) :
    (insert_players c ps).my_player =
      (snapshotLookup c.username ps).elim c.my_player some := by
  induction ps generalizing c with
  | nil => rfl
  | cons p ps ih =>
      by_cases h : p.username = c.username
      · rw [insert_players]
        simp only [h, if_pos rfl]
        rw [ih]
        cases hs : snapshotLookup c.username ps with
        | some q => simp [snapshotLookup, hs, Option.elim]
        | none => simp [snapshotLookup, hs, h, Option.elim]
      · rw [insert_players]
        simp only [h, if_neg h]
        rw [ih]
        cases hs : snapshotLookup c.username ps with
        | some q => simp [snapshotLookup, hs, Option.elim]
        | none => simp [snapshotLookup, hs, h, Option.elim]

theorem lookupAssoc_insertList (u : String) (ps : List Player)
    (m : List (String × Player)) :
    lookupAssoc u (insertList ps m) =
      (snapshotLookup u ps).elim (lookupAssoc u m) some := by
  induction ps generalizing m with
  | nil => rfl
  | cons p ps ih =>
      rw [insertList, ih]
      cases hs : snapshotLookup u ps with
      | some q => simp [snapshotLookup, hs, Option.elim]
      | none =>
          by_cases h : p.username = u
          · subst h
            simp [snapshotLookup, hs, Option.elim, lookupAssoc_insertAssoc_self]
          · simp [snapshotLookup, hs, h, Option.elim,
              lookupAssoc_insertAssoc_ne p.username u _ m (Ne.symm h)]

theorem lookupAssoc_update_all (c : IronVeinClient) (ps : List Player) (u : String) :
    lookupAssoc u (update_all_players_core c ps).players = snapshotLookup u ps := by
  unfold update_all_players_core
  rw [insert_players_players, lookupAssoc_insertList]
  cases snapshotLookup u ps <;> simp [Option.elim, lookupAssoc]

theorem update_all_my_player (c : IronVeinClient) (ps : List Player) :
    (update_all_players_core c ps).my_player =
      (snapshotLookup c.username ps).elim c.my_player some := by
  unfold update_all_players_core
  rw [insert_players_my_player]

theorem update_all_username (c : IronVeinClient) (ps : List Player) :
    (update_all_players_core c ps).username = c.username := by
  unfold update_all_players_core
  rw [insert_players_username]

theorem snapshotLookup_none_iff (u : String) (ps : List Player) :
    snapshotLookup u ps = none ↔ ∀ p ∈ ps, p.username ≠ u := by
  induction ps with
  | nil => simp [snapshotLookup]
  | cons q ps ih =>
      cases hs : snapshotLookup u ps with
      | some r =>
          simp only [snapshotLookup, hs]
          constructor
          · intro h
            exact absurd h (by simp)
          · intro h
            have hall : ∀ p ∈ ps, p.username ≠ u := fun p hp =>
              h p (List.mem_cons_of_mem q hp)
            rw [ih.mpr hall] at hs
            exact absurd hs (by simp)
      | none =>
          simp only [snapshotLookup, hs]
          by_cases h : q.username = u
          · simp only [if_pos h]
            constructor
            · intro hfalse
              exact absurd hfalse (by simp)
            · intro hall
              exact absurd h (hall q (List.mem_cons_self q ps))
          · simp only [if_neg h]
            constructor
            · intro _ p hp
              rcases List.mem_cons.mp hp with rfl | hp2
              · exact h
              · exact ih.mp hs p hp2
            · intro _
              trivial

theorem snapshotLookup_some_iff (u : String) (ps : List Player)
    (hnd : (ps.map Player.username).Nodup) :
    ∀ p : Player, snapshotLookup u ps = some p ↔ p ∈ ps ∧ p.username = u := by
  induction ps with
  | nil => simp [snapshotLookup]
  | cons q ps ih =>
      have hnd2 : (ps.map Player.username).Nodup := (List.nodup_cons.mp hnd).2
      have hq : q.username ∉ ps.map Player.username := (List.nodup_cons.mp hnd).1
      intro p
      cases hs : snapshotLookup u ps with
      | some r =>
          have hr : r ∈ ps ∧ r.username = u := (ih hnd2 r).mp hs
          simp only [snapshotLookup, hs]
          constructor
          · intro he
            have hrp : r = p := by simpa using he
            subst hrp
            exact ⟨List.mem_cons_of_mem q hr.1, hr.2⟩
          · rintro ⟨hmem, hpu⟩
            rcases List.mem_cons.mp hmem with rfl | hmem2
            · have hu1 : u ∈ ps.map Player.username :=
                hr.2 ▸ List.mem_map_of_mem Player.username hr.1
              have hu2 : u ∉ ps.map Player.username := hpu ▸ hq
              exact absurd hu1 hu2
            · have hrp : r = p := by
                apply List.inj_on_of_nodup_map hnd2 hr.1 hmem2
                rw [hr.2, hpu]
              rw [hrp]
      | none =>
          simp only [snapshotLookup, hs]
          by_cases h : q.username = u
          · simp only [if_pos h]
            constructor
            · intro he
              have : q = p := by simpa using he
              subst this
              exact ⟨List.mem_cons_self q ps, h⟩
            · rintro ⟨hmem, hpu⟩
              rcases List.mem_cons.mp hmem with rfl | hmem2
              · rfl
              · exact absurd ((snapshotLookup_none_iff u ps).mp hs p hmem2) (by simp [hpu])
          · simp only [if_neg h]
            constructor
            · intro he
              exact absurd he (by simp)
            · rintro ⟨hmem, hpu⟩
              rcases List.mem_cons.mp hmem with rfl | hmem2
              · exact absurd hpu h
              · exact absurd ((snapshotLookup_none_iff u ps).mp hs p hmem2) (by simp [hpu])

/-! ### Claim theorems -/

/-- Claim C1: for every sequence of dispatched inbound messages — in
particular player_joined, player_update and player_left — the players table
never contains two entries with the same username: every table mutation
inserts at the username key or rebuilds the table by such inserts (the
player_left branch reaches only the DOM list and leaves the client table
alone), so at most one Player per username exists at any time. -/
theorem worldstate_username_unique (c : IronVeinClient) (ms : List WebSocketMessage)
    (h : keysNodup c.players) : keysNodup (apply_game_messages c ms).players := by
  induction ms generalizing c with
  | nil => exact h
  | cons m ms ih =>
      have hstep : keysNodup (apply_game_message c m).players := by
        cases m with
        | PlayerJoined u x y =>
            rw [apply_game_message, update_player_players]
            exact keysNodup_insertAssoc _ _ _ h
        | PlayerUpdate u x y hp rs =>
            rw [apply_game_message, update_player_players]
            exact keysNodup_insertAssoc _ _ _ h
        | GameState ps =>
            rw [apply_game_message]
            unfold update_all_players_core
            rw [insert_players_players]
            exact keysNodup_insertList _ _ (by simp [keysNodup, assocKeys])
        | ChatMsg cm =>
            rw [apply_game_message]
            split
            · exact h
            · exact h
        | Join u r => exact h
        | Message u msg r => exact h
        | PlayerLeft u => exact h
        | ErrorMsg msg => exact h
        | Move u x y r => exact h
      show keysNodup (apply_game_messages (apply_game_message c m) ms).players
      exact ih _ hstep

/-- Claim C1 witness: a concrete inbound sequence on a fresh client. -/
theorem worldstate_username_unique_witness :
    keysNodup cFresh.players ∧
    keysNodup (apply_game_messages cFresh
      [WebSocketMessage.PlayerJoined "alice" 1 2,
       WebSocketMessage.PlayerUpdate "alice" 3 4 90 1,
       WebSocketMessage.PlayerJoined "bob" 5 6,
       WebSocketMessage.PlayerLeft "alice"]).players :=
  ⟨by decide,
   worldstate_username_unique cFresh
     [WebSocketMessage.PlayerJoined "alice" 1 2,
      WebSocketMessage.PlayerUpdate "alice" 3 4 90 1,
      WebSocketMessage.PlayerJoined "bob" 5 6,
      WebSocketMessage.PlayerLeft "alice"] (by decide)⟩

/-- Claim C10: the record stored by update_player — the path by which
player_joined and player_update frames, which carry no room field, enter the
table — always carries the client's own configured room, for every username
including remote players; an inbound message can never set a different room
through this path. -/
theorem update_player_room_forced (c : IronVeinClient) (u : String) (x y hp rs : Nat) :
    lookupAssoc u (update_player c u x y hp rs).players =
      some { username := u, x := x, y := y, room := c.room,
             health := hp, resources := rs } := by
  rw [update_player_players]
  exact lookupAssoc_insertAssoc_self _ _ _

/-- Claim C4 (amended): the dispatcher routes an inbound chat_message to
ping handling exactly when its raw message body equals "__ping__" or "p"
and its username equals the local identity — no normalization is applied —
and every other inbound chat_message is handled as chat. -/
theorem chat_route_exact_sentinel (selfUsername : String) (cm : ChatMessage) :
    route_chat_message selfUsername cm = ChatRoute.ping ↔
      ((cm.message = "__ping__" ∨ cm.message = "p") ∧ cm.username = selfUsername) := by
  unfold route_chat_message
  by_cases h : (cm.message = "__ping__" ∨ cm.message = "p") ∧ cm.username = selfUsername
  · simp [h]
  · simp [h]

/-- Claim C4 counterexample: a self echo whose normalized body equals the
probe sentinel "p" but whose raw body is " p " is handled as chat, not
routed to latency measurement as the claim states. -/
theorem chat_route_normalized_probe_cex :
    cmSpacedProbe.username = "alice" ∧
    normalizeKey cmSpacedProbe.message = "p" ∧
    route_chat_message "alice" cmSpacedProbe = ChatRoute.chat := by decide

/-- Claim C7 (amended): connect never inspects the prior connection state:
whenever the environment constructs the socket, connect succeeds — even
when a socket is already stored and open — and replaces the stored channel
with the new one; no InvalidState rejection of a double connect exists. -/
theorem connect_never_rejects (c : IronVeinClient) (ws : WebSocket) :
    connect c (Except.ok ws) =
      Except.ok { client := { c with websocket := some ws },
                  url := get_server_url ++ "/ws/" ++ c.room } := rfl

/-- Claim C7 counterexample: calling connect on a client whose channel is
already open succeeds instead of failing with an InvalidState error. -/
theorem connect_double_accepts_cex :
    is_websocket_connected cOpen = true ∧
    (connect cOpen (Except.ok { ready_state := 0 })).isOk = true := by decide

/-- Claim C8: the claim requires an idempotent disconnect, but the exported
client API (impl block, src/src/lib.rs lines 84-855) defines no disconnect
method at all, so the contract cannot be exercised, let alone met. -/
theorem no_disconnect_method : "disconnect" ∉ ironVeinClientExportedMethods := by decide

/-- Claim C2: applying a game_state snapshot fully replaces the players
table — afterwards it contains exactly the snapshot players (keyed by their
usernames) and nothing else — and applying the same snapshot twice yields
the same client state as applying it once. -/
theorem game_state_replace_idempotent :
    (∀ (c : IronVeinClient) (ps : List Player), (ps.map Player.username).Nodup →
      ∀ (u : String) (p : Player),
        lookupAssoc u (update_all_players_core c ps).players = some p ↔
          (p ∈ ps ∧ p.username = u))
    ∧ (∀ (c : IronVeinClient) (ps : List Player),
        update_all_players_core (update_all_players_core c ps) ps =
          update_all_players_core c ps) := by
  constructor
  · intro c ps hnd u p
    rw [lookupAssoc_update_all]
    exact snapshotLookup_some_iff u ps hnd p
  · intro c ps
    apply clientEq
    · rw [update_all_username, update_all_username]
    · unfold update_all_players_core
      rw [insert_players_room, insert_players_room]
    · unfold update_all_players_core
      rw [insert_players_websocket, insert_players_websocket]
    · unfold update_all_players_core
      rw [insert_players_players, insert_players_players]
    · rw [update_all_my_player, update_all_my_player, update_all_username]
      cases snapshotLookup c.username ps <;> simp [Option.elim]
    · unfold update_all_players_core
      rw [insert_players_pending, insert_players_pending]

/-- Claim C2 witness. -/
theorem game_state_replace_idempotent_witness :
    (lookupAssoc "bob" (update_all_players_core cOpen [pAlice0, pBob]).players = some pBob ↔
      (pBob ∈ [pAlice0, pBob] ∧ pBob.username = "bob")) ∧
    update_all_players_core (update_all_players_core cOpen [pAlice0, pBob]) [pAlice0, pBob] =
      update_all_players_core cOpen [pAlice0, pBob] :=
  ⟨game_state_replace_idempotent.1 cOpen [pAlice0, pBob] (by decide) "bob" pBob,
   game_state_replace_idempotent.2 cOpen [pAlice0, pBob]⟩

/-- Claim C3 (amended): the move intent issued while connected sends the
Move frame and optimistically refreshes only the DOM position display; the
players table is left untouched, and the table position changes only when a
subsequent player_update for the username is applied, whose values then
overwrite the entry (last write wins). -/
theorem optimistic_move_display_only (c : IronVeinClient) (x y : Nat)
    (h : is_websocket_connected c = true) :
    (send_move_command c x y true).client = c ∧
    (send_move_command c x y true).sent = [WebSocketMessage.Move c.username x y c.room] ∧
    (send_move_command c x y true).posDisplay = [(c.username, x, y)] ∧
    (∀ hp rs : Nat,
      lookupAssoc c.username
          (update_player (send_move_command c x y true).client c.username x y hp rs).players =
        some { username := c.username, x := x, y := y, room := c.room,
               health := hp, resources := rs }) := by
  have hws : ∃ ws, c.websocket = some ws := by
    cases hw : c.websocket with
    | some ws => exact ⟨ws, rfl⟩
    | none => simp [is_websocket_connected, hw] at h
  obtain ⟨ws, hw⟩ := hws
  have hmove : send_move_command c x y true =
      { sent := [WebSocketMessage.Move c.username x y c.room],
        posDisplay := [(c.username, x, y)], client := c } := by
    simp [send_move_command, h, hw]
  refine ⟨by rw [hmove], by rw [hmove], by rw [hmove], ?_⟩
  intro hp rs
  rw [hmove]
  show lookupAssoc c.username (update_player c c.username x y hp rs).players = _
  rw [update_player_players]
  exact lookupAssoc_insertAssoc_self _ _ _

/-- Claim C3 witness. -/
theorem optimistic_move_display_only_witness :
    (send_move_command cOpen 2 3 true).client = cOpen ∧
    (send_move_command cOpen 2 3 true).sent = [WebSocketMessage.Move "alice" 2 3 "r1"] ∧
    (send_move_command cOpen 2 3 true).posDisplay = [("alice", 2, 3)] ∧
    lookupAssoc "alice"
        (update_player (send_move_command cOpen 2 3 true).client "alice" 2 3 77 8).players =
      some { username := "alice", x := 2, y := 3, room := "r1",
             health := 77, resources := 8 } := by
  obtain ⟨h1, h2, h3, h4⟩ := optimistic_move_display_only cOpen 2 3 (by decide)
  exact ⟨h1, by simpa [cOpen] using h2, by simpa [cOpen] using h3,
    by simpa [cOpen] using h4 77 8⟩

/-- Claim C3 counterexample: while connected, the move intent leaves the
players table unchanged — after move(5, 7) the local player's table entry
still holds position (0, 0), not (5, 7) as the claim states. -/
theorem optimistic_move_worldstate_cex :
    is_websocket_connected cOpen = true ∧
    (send_move_command cOpen 5 7 true).client = cOpen ∧
    lookupAssoc "alice" (send_move_command cOpen 5 7 true).client.players = some pAlice0 ∧
    ¬(pAlice0.x = 5 ∧ pAlice0.y = 7) := by decide

/-- Claim C5: pending-chat reconciliation is case- and whitespace-
insensitive: registering a pending text and retiring any text with the same
lowercase+trim normalization removes and returns exactly that entry, and
retiring a key with no registered pending entry returns none and removes
nothing. -/
theorem pending_register_retire :
    (∀ (t1 t2 : String) (hdl : Nat) (m : List (String × Nat)),
        normalizeKey t1 = normalizeKey t2 →
        pending_retire t2 (add_pending_message t1 hdl true m) =
          (some hdl, eraseAssoc (normalizeKey t1) m))
    ∧ (∀ (t : String) (m : List (String × Nat)),
        lookupAssoc (normalizeKey t) m = none →
        pending_retire t m = (none, m)) := by
  constructor
  · intro t1 t2 hdl m heq
    unfold pending_retire add_pending_message
    rw [if_pos rfl, ← heq, lookupAssoc_insertAssoc_self, eraseAssoc_insertAssoc]
  · intro t m hnone
    unfold pending_retire
    rw [hnone]

/-- Claim C5 witness: register "Hello", retire "hello". -/
theorem pending_register_retire_witness :
    pending_retire "hello" (add_pending_message "Hello" 7 true []) =
      (some 7, eraseAssoc (normalizeKey "Hello") []) ∧
    pending_retire "absent" [] = (none, ([] : List (String × Nat))) :=
  ⟨pending_register_retire.1 "Hello" "hello" 7 [] (by decide),
   pending_register_retire.2 "absent" [] (by decide)⟩

/-- Claim C6 (amended): sending any text while the channel is not open
writes nothing to the channel and registers no pending entry; the
not-connected error line is surfaced for every text except the two probe
sentinels "p" and "__ping__", for which the failure is silent. -/
theorem send_chat_not_connected (c : IronVeinClient) (msg : String)
    (sendOk chatBox : Bool) (hdl : Nat)
    (h : is_websocket_connected c = false) :
    (send_message c msg sendOk chatBox hdl).sent = [] ∧
    (send_message c msg sendOk chatBox hdl).pending = c.pending_messages ∧
    (send_message c msg sendOk chatBox hdl).chatLines =
      (if msg = "__ping__" ∨ msg = "p" then [] else ["❌ Not connected to server"]) := by
  unfold send_message
  rw [if_pos h]
  exact ⟨rfl, rfl, rfl⟩

/-- Claim C6 witness. -/
theorem send_chat_not_connected_witness :
    (send_message cFresh "hello" true true 0).sent = [] ∧
    (send_message cFresh "hello" true true 0).pending = cFresh.pending_messages ∧
    (send_message cFresh "hello" true true 0).chatLines = ["❌ Not connected to server"] := by
  obtain ⟨h1, h2, h3⟩ := send_chat_not_connected cFresh "hello" true true 0 (by decide)
  refine ⟨h1, h2, ?_⟩
  rw [h3, if_neg (by decide)]

/-- Claim C6 counterexample: for the chat text "p" sent while disconnected,
nothing is surfaced to the user at all — no error line is produced — which
refutes the claim's quantification over every chat text. -/
theorem send_chat_sentinel_silent_cex :
    is_websocket_connected cFresh = false ∧
    (send_message cFresh "p" true true 0).chatLines = [] ∧
    (send_message cFresh "p" true true 0).sent = [] := by decide

/-- Claim C9 (amended): the self reference equals the table entry under the
local username after every update_player (given it did before), and after
every applied game_state snapshot that contains the local username or when
no self reference was set; a snapshot omitting the local username leaves
my_player holding its previous, now-stale record while the table has no
such entry.  player_left never touches the client table. -/
theorem self_reference_agreement :
    (∀ (c : IronVeinClient) (u : String) (x y hp rs : Nat),
        selfConsistent c → selfConsistent (update_player c u x y hp rs))
    ∧ (∀ (c : IronVeinClient) (ps : List Player),
        ((∃ p ∈ ps, p.username = c.username) ∨ c.my_player = none) →
        selfConsistent (update_all_players_core c ps))
    ∧ (∀ (c : IronVeinClient) (u : String),
        apply_game_message c (WebSocketMessage.PlayerLeft u) = c) := by
  refine ⟨?_, ?_, ?_⟩
  · intro c u x y hp rs hc
    unfold selfConsistent at hc ⊢
    rw [update_player_username, update_player_players, update_player_my_player]
    by_cases h : u = c.username
    · subst h
      rw [if_pos rfl, lookupAssoc_insertAssoc_self]
    · rw [if_neg h, lookupAssoc_insertAssoc_ne u c.username _ c.players (Ne.symm h)]
      exact hc
  · intro c ps hor
    unfold selfConsistent
    rw [update_all_username, update_all_my_player, lookupAssoc_update_all]
    cases hs : snapshotLookup c.username ps with
    | some q => simp [Option.elim]
    | none =>
        rcases hor with ⟨p, hp, hpu⟩ | hnone
        · exact absurd hpu ((snapshotLookup_none_iff _ _).mp hs p hp)
        · simp [Option.elim, hnone]
  · intro c u
    rfl

/-- Claim C9 witness. -/
theorem self_reference_agreement_witness :
    selfConsistent (update_player cOpen "bob" 9 9 50 2) ∧
    selfConsistent (update_all_players_core cFresh [pAlice0, pBob]) ∧
    apply_game_message cFresh (WebSocketMessage.PlayerLeft "bob") = cFresh :=
  ⟨self_reference_agreement.1 cOpen "bob" 9 9 50 2 (by decide),
   self_reference_agreement.2.1 cFresh [pAlice0, pBob]
     (Or.inl ⟨pAlice0, by decide, by decide⟩),
   self_reference_agreement.2.2 cFresh "bob"⟩

/-- Claim C9 counterexample: after an authoritative update puts the local
player in the table, a game_state snapshot that omits the local username
rebuilds the table without it but leaves my_player holding the old record:
the self reference no longer equals the (absent) table entry. -/
theorem self_reference_stale_cex :
    ¬ selfConsistent
        (update_all_players_core (update_player cFresh "alice" 1 2 100 0) [pBob]) := by
  decide
